import Mathlib

/-!
Shallow embedding of `scripts/run_benchmarks.py` (the Zero1 benchmarking
harness) and proofs about its parsing, truncation, command-running and
report-assembly behaviour.

Text is modelled as `List Char` (Python strings are sequences of unicode
code points; `len` counts characters).  Fallible code returns `Except`.
Subprocess execution, the filesystem and the clock are modelled by an
oracle environment supplying each external command's exit code and
captured streams, the artifact's contents, the git revision and the
timestamp — the spec treats these as thin I/O wrappers.

Python floats are modelled as exact rationals, always built with `mkRat`
over integer arithmetic (never `Rat.add`/`Rat.mul`) so that concrete
instances evaluate inside the kernel.
-/

namespace Z1Bench

/-- ASCII whitespace recognised by `str.strip`, the regex class `\s` and
`float`/`int` surrounding-whitespace tolerance.  (Exotic unicode
whitespace accepted by CPython is not modelled.) -/
def isPySpace (c : Char) : Bool :=
  c = ' ' || c = '\t' || c = '\n' || c = '\r' || c = '\x0b' || c = '\x0c'

/-- ASCII decimal digit, the regex class `\d` (unicode decimal digits
accepted by CPython are not modelled). -/
def isPyDigit (c : Char) : Bool :=
  '0' ≤ c && c ≤ '9'

/-- `str.strip()`: remove leading and trailing whitespace. -/
def pyStrip (s : List Char) : List Char :=
  ((s.dropWhile isPySpace).reverse.dropWhile isPySpace).reverse

/-- Worker for `str.splitlines()`: accumulates the current line
(reversed); the flag records that the previous character was a bare
`\r`, so that a following `\n` belongs to the same `\r\n` terminator. -/
def splitlinesAux : List Char → List Char → Bool → List (List Char)
  | [], acc, _ => if acc.isEmpty then [] else [acc.reverse]
  | c :: rest, acc, afterCR =>
    if c = '\n' then
      if afterCR then splitlinesAux rest [] false
      else acc.reverse :: splitlinesAux rest [] false
    else if c = '\r' then acc.reverse :: splitlinesAux rest [] true
    else splitlinesAux rest (c :: acc) false

/-- `str.splitlines()` with the terminators `\n`, `\r`, `\r\n`; a
trailing terminator produces no extra empty line.  (The rarer unicode
line boundaries CPython also splits on are not modelled.) -/
def splitlines (s : List Char) : List (List Char) :=
  splitlinesAux s [] false

/-- `s.startswith(p)` for lists of characters (subject first). -/
def startsWithL : List Char → List Char → Bool
  | _, [] => true
  | [], _ :: _ => false
  | c :: s, d :: p => c = d && startsWithL s p

/-- `s.split(":", 1)` when a colon is present: the part before the first
colon and the part after it; `none` when the line has no colon (in which
case `split` returns a single part). -/
def splitAtColon : List Char → Option (List Char × List Char)
  | [] => none
  | c :: rest =>
    if c = ':' then some ([], rest)
    else (splitAtColon rest).map (fun p => (c :: p.1, p.2))

/-- `s.split(":", 1)[1]` for a line already known to contain a colon
(every use is guarded by a `startswith` check whose pattern contains the
colon). -/
def afterColon (s : List Char) : List Char :=
  match splitAtColon s with
  | some p => p.2
  | none => []

/-- `s.rstrip("%")`: remove all trailing percent signs. -/
def rstripPercent (s : List Char) : List Char :=
  (s.reverse.dropWhile (fun c => c = '%')).reverse

/-- Value of a string of decimal digits. -/
def digitsToNat (ds : List Char) : Nat :=
  ds.foldl (fun a c => 10 * a + (c.toNat - '0'.toNat)) 0

/-- A nonempty all-digit string, as required after an optional sign by
`int`. -/
def natDigits? (ds : List Char) : Option Nat :=
  if ds.isEmpty then none
  else if ds.all isPyDigit then some (digitsToNat ds) else none

/-- Python `int(s)`: surrounding whitespace ignored, optional sign, then
at least one decimal digit; anything else raises `ValueError`
(modelled as `none`).  (Digit-group underscores and unicode digits are
not modelled.) -/
def pyInt? (s : List Char) : Option Int :=
  match pyStrip s with
  | '+' :: ds => (natDigits? ds).map (fun n => (n : Int))
  | '-' :: ds => (natDigits? ds).map (fun n => -(n : Int))
  | ds => (natDigits? ds).map (fun n => (n : Int))

/-- Mantissa digits of a float literal: integer part, fractional part.
The value is `mkRat (ip * 10 ^ fp.length + fp) (10 ^ fp.length)`. -/
def floatMantissa (ip fp : List Char) : Int × Nat :=
  ((digitsToNat ip * 10 ^ fp.length + digitsToNat fp : Nat), 10 ^ fp.length)

/-- Optional exponent suffix `e`/`E` with optional sign; must consume
the rest of the string.  Returns the signed exponent. -/
def floatExp? : List Char → Option Int
  | [] => some 0
  | c :: rest =>
    if c = 'e' || c = 'E' then
      match rest with
      | '+' :: ds => (natDigits? ds).map (fun n => (n : Int))
      | '-' :: ds => (natDigits? ds).map (fun n => -(n : Int))
      | ds => (natDigits? ds).map (fun n => (n : Int))
    else none

/-- Assemble a float value from sign, mantissa and exponent. -/
def floatVal (neg : Bool) (num : Int) (den : Nat) (e : Int) : ℚ :=
  let num := if neg then -num else num
  if 0 ≤ e then mkRat (num * 10 ^ e.toNat) den
  else mkRat num (den * 10 ^ (-e).toNat)

/-- Unsigned float body: `digits [. digits]`, `. digits` or
`digits .`, followed by an optional exponent. -/
def pyFloatBody? (neg : Bool) (s : List Char) : Option ℚ :=
  let ip := s.takeWhile isPyDigit
  let s1 := s.dropWhile isPyDigit
  match s1 with
  | '.' :: s2 =>
    let fp := s2.takeWhile isPyDigit
    let s3 := s2.dropWhile isPyDigit
    if ip.isEmpty && fp.isEmpty then none
    else
      let m := floatMantissa ip fp
      (floatExp? s3).map (fun e => floatVal neg m.1 m.2 e)
  | s1 =>
    if ip.isEmpty then none
    else (floatExp? s1).map (fun e => floatVal neg (digitsToNat ip) 1 e)

/-- Python `float(s)` on finite decimal literals: surrounding whitespace
ignored, optional sign, mantissa with optional fraction dot, optional
exponent; anything else raises `ValueError` (modelled as `none`).
(`inf`/`nan` and digit-group underscores are not modelled; values are
exact rationals.) -/
def pyFloat? (s : List Char) : Option ℚ :=
  match pyStrip s with
  | '+' :: rest => pyFloatBody? false rest
  | '-' :: rest => pyFloatBody? true rest
  | rest => pyFloatBody? false rest

/-! ## Text Truncator (`truncate`, §4.1) -/

/-- `TRUNCATE_LIMIT = 2000`. -/
def TRUNCATE_LIMIT : Nat := 2000

/-- The marker appended after the newline:
`...[truncated {omitted} chars]`. -/
def truncMarker (omitted : Nat) : List Char :=
  "...[truncated ".data ++ (Nat.repr omitted).data ++ " chars]".data

/-- `truncate(text, limit)`: `None` passes through; text at or under the
limit (in characters) is returned unchanged; otherwise the first `limit`
characters, a newline, and the marker naming the number of omitted
characters. -/
def truncate (text : Option (List Char)) (limit : Nat) : Option (List Char) :=
  match text with
  | none => none
  | some t =>
    if t.length ≤ limit then some t
    else some (t.take limit ++ '\n' :: truncMarker (t.length - limit))

/-! ## Hash-Listing Parser (`parse_hash_output`, §4.2) -/

/-- `ParsedHashes`: the two recognised hash names; a missing key is
`none`, never an empty string. -/
structure ParsedHashes where
  semhash : Option (List Char)
  formhash : Option (List Char)
  deriving DecidableEq

/-- One iteration of the loop body of `parse_hash_output`: split the
line once on the first colon (no colon: skip), strip both parts, record
the value only under the keys `semhash` and `formhash` (assignment
overwrites, so the last occurrence wins). -/
def hashStep (h : ParsedHashes) (line : List Char) : ParsedHashes :=
  match splitAtColon line with
  | none => h
  | some (k, v) =>
    let key := pyStrip k
    let value := pyStrip v
    if key = "semhash".data then { h with semhash := some value }
    else if key = "formhash".data then { h with formhash := some value }
    else h

/-- `parse_hash_output(output)`: fold `hashStep` over the lines,
starting from the empty mapping.  Total: never fails. -/
def parse_hash_output (output : List Char) : ParsedHashes :=
  (splitlines output).foldl hashStep ⟨none, none⟩

/-! ## Context-Report Parser (`parse_ctx_output`, §4.3) -/

/-- One per-entry record of the token/character breakdown. -/
structure CtxEntry where
  name : List Char
  tokens : Nat
  chars : Nat
  deriving DecidableEq

/-- The mutable state of the parsing loop: the scalar fields gathered in
the `metrics` dict and the `functions` list. -/
structure CtxState where
  total_tokens : Option Int
  budget : Option Int
  usage_percent : Option ℚ
  char_count : Option Int
  functions : List CtxEntry
  deriving DecidableEq

/-- The initial loop state: no scalar set, no entries. -/
def ctxInit : CtxState := ⟨none, none, none, none, []⟩

/-- The parser's result: the raw text plus the extracted fields;
`functions` is present only when at least one entry line matched. -/
structure CtxMetrics where
  raw : List Char
  total_tokens : Option Int
  budget : Option Int
  usage_percent : Option ℚ
  char_count : Option Int
  functions : Option (List CtxEntry)
  deriving DecidableEq

/-- A `ValueError` escaping `int(...)` inside `parse_ctx_output` (the
only fatal parse failure), carrying the offending string. -/
inductive CtxError where
  | intParse (s : List Char)
  deriving DecidableEq

/-- `p ← some x` when the next character is whitespace; then skip the
maximal whitespace run.  This is the regex fragment `\s+` (no
backtracking is needed: every following pattern piece starts with a
non-whitespace character). -/
def skipWs1 : List Char → Option (List Char)
  | [] => none
  | c :: rest => if isPySpace c then some (rest.dropWhile isPySpace) else none

/-- The regex fragment `(\d+)`: at least one digit, maximal munch (the
following pattern pieces never start with a digit). -/
def takeDigits : List Char → Option (Nat × List Char)
  | s =>
    let ds := s.takeWhile isPyDigit
    if ds.isEmpty then none
    else some (digitsToNat ds, s.dropWhile isPyDigit)

/-- Match a literal string, returning the rest of the input. -/
def expectLit : List Char → List Char → Option (List Char)
  | [], s => some s
  | _ :: _, [] => none
  | c :: cs, d :: ds => if c = d then expectLit cs ds else none

/-- The part of `fn_pattern` after the name's colon:
`\s*(?P<tokens>\d+)\s+tokens\s+\((?P<chars>\d+)\s+chars\)`. -/
def fnMatchTail (s : List Char) : Option (Nat × Nat) := do
  let s := s.dropWhile isPySpace
  let (tokens, s) ← takeDigits s
  let s ← skipWs1 s
  let s ← expectLit "tokens".data s
  let s ← skipWs1 s
  let s ← expectLit "(".data s
  let (chars, s) ← takeDigits s
  let s ← skipWs1 s
  let _ ← expectLit "chars)".data s
  some (tokens, chars)

/-- `fn_pattern.match(stripped)` for
`-\s*(?P<name>[^:]+):\s*(?P<tokens>\d+)\s+tokens\s+\((?P<chars>\d+)\s+chars\)`:
a PREFIX match (`re.match`), so trailing text after the final `)` is
ignored.  `\s*[^:]+:` succeeds exactly when a colon exists and the
segment before it is nonempty; by greediness with backtracking the
`name` group is that segment minus the longest whitespace prefix that
leaves it nonempty (so its last character when the segment is all
whitespace).  The rest is deterministic maximal munch (`fnMatchTail`).
Returns `(name group, tokens, chars)`. -/
def fnMatch (s : List Char) : Option (List Char × Nat × Nat) :=
  match s with
  | [] => none
  | c :: rest =>
    if c = '-' then
      match splitAtColon rest with
      | none => none
      | some (seg, t) =>
        if seg.isEmpty then none
        else
          let core := seg.dropWhile isPySpace
          let name := if core.isEmpty then seg.reverse.take 1 else core
          (fnMatchTail t).map (fun p => (name, p.1, p.2))
    else none

/-- The labels of the four scalar lines. -/
def ttLabel : List Char := "Total tokens:".data

/-- `Budget:`. -/
def bdLabel : List Char := "Budget:".data

/-- `Usage:`. -/
def usLabel : List Char := "Usage:".data

/-- `Characters:`. -/
def ccLabel : List Char := "Characters:".data

/-- The loop body of `parse_ctx_output` on one line: strip, then apply
the first matching rule of the `if`/`elif` chain.  `Total tokens:` and
`Budget:` parse their remainder as `int` only when nonempty (a nonempty
non-integer raises); `Usage:` strips a trailing `%` and swallows a
`float` failure (field left unset, loop continues); `Characters:`
parses as `int` unconditionally, so a failure there raises; otherwise
try the per-entry pattern, appending `{name.strip(), tokens, chars}`. -/
def processLine (S : CtxState) (line : List Char) : Except CtxError CtxState :=
  let stripped := pyStrip line
  if startsWithL stripped ttLabel then
    let value := pyStrip (afterColon stripped)
    if value.isEmpty then .ok S
    else
      match pyInt? value with
      | some n => .ok { S with total_tokens := some n }
      | none => .error (.intParse value)
  else if startsWithL stripped bdLabel then
    let value := pyStrip (afterColon stripped)
    if value.isEmpty then .ok S
    else
      match pyInt? value with
      | some n => .ok { S with budget := some n }
      | none => .error (.intParse value)
  else if startsWithL stripped usLabel then
    let usage := rstripPercent (pyStrip (afterColon stripped))
    match pyFloat? usage with
    | some q => .ok { S with usage_percent := some q }
    | none => .ok S
  else if startsWithL stripped ccLabel then
    let value := pyStrip (afterColon stripped)
    match pyInt? value with
    | some n => .ok { S with char_count := some n }
    | none => .error (.intParse value)
  else
    match fnMatch stripped with
    | some g => .ok { S with functions := S.functions ++ [⟨pyStrip g.1, g.2.1, g.2.2⟩] }
    | none => .ok S

/-- The `for line in output.splitlines()` loop: process lines in order,
stopping at the first raised error. -/
def foldCtx : CtxState → List (List Char) → Except CtxError CtxState
  | S, [] => .ok S
  | S, l :: ls =>
    match processLine S l with
    | .ok S2 => foldCtx S2 ls
    | .error e => .error e

/-- `parse_ctx_output(output)`: always retains the raw text; the
`functions` key is added only when the list is nonempty. -/
def parse_ctx_output (output : List Char) : Except CtxError CtxMetrics :=
  match foldCtx ctxInit (splitlines output) with
  | .ok S =>
    .ok { raw := output
          total_tokens := S.total_tokens
          budget := S.budget
          usage_percent := S.usage_percent
          char_count := S.char_count
          functions := if S.functions.isEmpty then none else some S.functions }
  | .error e => .error e

/-- The entry (if any) a single line contributes to the `functions`
list: the per-entry pattern applied to the stripped line, with the name
group stripped.  (The four scalar rules never contribute entries: their
labels make the stripped line start with a letter, while the entry
pattern requires a leading dash.) -/
def entryOfLine (l : List Char) : Option CtxEntry :=
  (fnMatch (pyStrip l)).map (fun g => ⟨pyStrip g.1, g.2.1, g.2.2⟩)

/-- The canonical `Total tokens:` line of the spec's context-parser
test. -/
def ttLine : List Char := "Total tokens: 150".data

/-- The canonical `Budget:` line. -/
def bdLine : List Char := "Budget: 200".data

/-- The canonical `Usage:` line. -/
def usLine : List Char := "Usage: 75.0%".data

/-- The canonical `Characters:` line. -/
def ccLine : List Char := "Characters: 900".data

/-- The canonical per-entry line. -/
def fooLine : List Char := "- foo: 10 tokens (40 chars)".data

/-- The entry the canonical per-entry line produces. -/
def fooEntry : CtxEntry := ⟨"foo".data, 10, 40⟩

/-- The five canonical lines of the spec's context-parser test. -/
def fiveLines : List (List Char) := [ttLine, bdLine, usLine, ccLine, fooLine]

/-- A line `parse_ctx_output` ignores completely: it matches none of
the four scalar rules and not the per-entry pattern. -/
def inertLine (l : List Char) : Prop :=
  startsWithL (pyStrip l) ttLabel = false ∧
  startsWithL (pyStrip l) bdLabel = false ∧
  startsWithL (pyStrip l) usLabel = false ∧
  startsWithL (pyStrip l) ccLabel = false ∧
  fnMatch (pyStrip l) = none

instance (l : List Char) : Decidable (inertLine l) := by
  unfold inertLine; infer_instance

/-- The five canonical lines joined by newlines: the spec's
context-parser test input. -/
def ctxOkInput : List Char :=
  ("Total tokens: 150\nBudget: 200\nUsage: 75.0%\nCharacters: 900\n" ++
    "- foo: 10 tokens (40 chars)").data

/-- A text containing the five canonical lines AND a second entry line:
the input refuting the claim that containing the five lines alone pins
down the parse result. -/
def ctxCexInput : List Char :=
  ("Total tokens: 150\nBudget: 200\nUsage: 75.0%\nCharacters: 900\n" ++
    "- foo: 10 tokens (40 chars)\n- bar: 1 tokens (2 chars)").data

/-- What `parse_ctx_output` returns on `ctxCexInput`: a second entry
appears after `foo`. -/
def ctxCexOutput : CtxMetrics :=
  { raw := ctxCexInput
    total_tokens := some 150
    budget := some 200
    usage_percent := some (mkRat 750 10)
    char_count := some 900
    functions := some [fooEntry, ⟨"bar".data, 1, 2⟩] }

/-! ## Derived numeric fields (`main`, §3 CellMetrics) -/

/-- Round-half-to-even of the rational `n / d` (`d > 0`), the rounding
CPython's `round` applies, computed on integers:
floor quotient, then compare twice the remainder with the
denominator. -/
def roundHalfEven (n : Int) (d : Nat) : Int :=
  let f := Int.fdiv n d
  let r := n - f * d
  if 2 * r < d then f
  else if (d : Int) < 2 * r then f + 1
  else if f % 2 = 0 then f else f + 1

/-- `round(q, 4)`: round half-to-even at the fourth decimal place.
`mkRat` keeps every rational kernel-computable. -/
def round4 (q : ℚ) : ℚ :=
  mkRat (roundHalfEven (q.num * 10000) q.den) 10000

/-- The `compression_ratio` expression of `main`:
`round(relaxed_bytes / compact_bytes, 4) if compact_bytes else None`.
(`mkRat relaxed compact` is the exact value of the Python true
division.) -/
def compression_ratio (compact_bytes relaxed_bytes : Nat) : Option ℚ :=
  if compact_bytes ≠ 0 then some (round4 (mkRat relaxed_bytes compact_bytes))
  else none

/-- UTF-8 width of one unicode scalar value. -/
def charUtf8Size (c : Char) : Nat :=
  if c.toNat < 0x80 then 1
  else if c.toNat < 0x800 then 2
  else if c.toNat < 0x10000 then 3
  else 4

/-- `len(text.encode("utf-8"))`. -/
def utf8Len (s : List Char) : Nat :=
  (s.map charUtf8Size).sum

/-! ## Command Runner (`run_command`, §4.4) -/

/-- Characters `shlex.quote` leaves unquoted: ASCII `\w` plus the
punctuation `@ % + = : , . -` and the forward slash. -/
def isShlexSafe (c : Char) : Bool :=
  c.isAlphanum || c = '_' || c = '@' || c = '%' || c = '+' || c = '=' ||
    c = ':' || c = ',' || c = '.' || c = '/' || c = '-'

/-- The single-quote character. -/
def squote : Char := Char.ofNat 39

/-- `shlex.quote(s)`: empty becomes a pair of single quotes; all-safe
strings pass through; otherwise wrap in single quotes, replacing each
embedded single quote by the quote-break sequence. -/
def shlexQuote (s : List Char) : List Char :=
  if s.isEmpty then [squote, squote]
  else if s.all isShlexSafe then s
  else squote :: (s.foldr
    (fun c acc =>
      if c = squote then [squote, '"', squote, '"', squote] ++ acc
      else c :: acc) []) ++ [squote]

/-- `" ".join(shlex.quote(part) for part in args)`. -/
def shlexJoin (args : List (List Char)) : List Char :=
  (args.map shlexQuote).intersperse [' '] |>.foldr (· ++ ·) []

/-- One record of the `commands` array (the dataclass `CommandResult`,
also the dict payload after `asdict`): `stdout`/`stderr` are present
exactly when the runner captured them. -/
structure CommandResult where
  label : List Char
  command : List Char
  duration_s : ℚ
  returncode : Int
  stdout : Option (List Char)
  stderr : Option (List Char)
  deriving DecidableEq

/-- `subprocess.CalledProcessError(returncode, args)`. -/
structure CalledProcessError where
  returncode : Int
  cmd : List (List Char)
  deriving DecidableEq

/-- The oracle for one external process: exit status, the two streams
(which the parent only sees when it captures them), and the
monotonic-clock elapsed time. -/
structure Exec where
  returncode : Int
  stdout : List Char
  stderr : List Char
  duration_s : ℚ
  deriving DecidableEq

/-- `run_command(label, args, capture_output)` given the oracle outcome
`exec` of the subprocess.  First component: everything this call writes
to the parent's stderr — on a nonzero exit with capture on, the
captured stdout then the captured stderr, verbatim (without capture the
child's streams were inherited and `result.stdout`/`result.stderr` are
`None`, so the two writes are both empty).  Second component: the
raised `CalledProcessError` (carrying return code and argv) on nonzero
exit, else the `CommandResult`. -/
def run_command (exec : Exec) (label : List Char) (args : List (List Char))
    (capture_output : Bool) :
    List Char × Except CalledProcessError CommandResult :=
  let entry : CommandResult :=
    { label := label
      command := shlexJoin args
      duration_s := exec.duration_s
      returncode := exec.returncode
      stdout := if capture_output then some exec.stdout else none
      stderr := if capture_output then some exec.stderr else none }
  if exec.returncode ≠ 0 then
    ((if capture_output then exec.stdout ++ exec.stderr else []),
      .error ⟨exec.returncode, args⟩)
  else ([], .ok entry)

/-! ## Report Assembler (`main`, §4.5) -/

/-- `cell_metrics` of the report. -/
structure CellMetrics where
  compact_chars : Nat
  compact_bytes : Nat
  relaxed_chars : Nat
  relaxed_bytes : Nat
  compression_ratio : Option ℚ
  deriving DecidableEq

/-- `meta` of the report. -/
structure ReportMeta where
  git_head : List Char
  timestamp : List Char
  cell : List Char
  cell_metrics : CellMetrics
  hashes : ParsedHashes
  context : CtxMetrics
  deriving DecidableEq

/-- The serialized report object. -/
structure Report where
  meta : ReportMeta
  commands : List CommandResult
  deriving DecidableEq

/-- The environment `main` runs in: whether the cell path resolves
(`ensure_cell`), the cell's text (`cell_path.read_text()`), the argv
rendering of the absolute cell path, the path relative to the repo root
(`str(cell_path.relative_to(REPO_ROOT))`), the `git rev-parse HEAD`
output and the UTC timestamp (thin I/O wrappers per the spec), and the
oracle outcome of each of the seven pipeline commands. -/
structure Env where
  cellExists : Bool
  cellText : List Char
  cellPathStr : List Char
  cellRelPath : List Char
  gitHead : List Char
  timestamp : List Char
  execFmt : Exec
  execClippy : Exec
  execTest : Exec
  execFmtCheck : Exec
  execRelaxed : Exec
  execHash : Exec
  execCtx : Exec
  deriving DecidableEq

/-- An uncaught exception terminating `main` with a nonzero process
exit status: the `FileNotFoundError` of `ensure_cell`, a
`CalledProcessError` of a pipeline step, or a `ValueError` escaping
`parse_ctx_output`. -/
inductive MainError where
  | cellNotFound
  | commandFailed (e : CalledProcessError)
  | ctxError (e : CtxError)
  deriving DecidableEq

deriving instance DecidableEq for Except

/-- What a run of `main` leaves behind: the labels of the pipeline
commands that were actually invoked (in order), everything written to
the parent's stderr, and either the report that is then serialized to
the output file, or the uncaught error (in which case no report file is
written and the process exits nonzero). -/
structure MainOut where
  trace : List (List Char)
  errOut : List Char
  result : Except MainError Report
  deriving DecidableEq

/-- Argv of step 1, `cargo fmt`. -/
def argsFmt : List (List Char) := ["cargo".data, "fmt".data, "--all".data]

/-- Argv of step 2, `cargo clippy`. -/
def argsClippy : List (List Char) :=
  ["cargo".data, "clippy".data, "--workspace".data, "--all-targets".data,
    "--all-features".data, "--".data, "-D".data, "warnings".data]

/-- Argv of step 3, `cargo test`. -/
def argsTest : List (List Char) :=
  ["cargo".data, "test".data, "--workspace".data, "--all-targets".data]

/-- Argv of step 4, `z1 fmt --check`. -/
def argsFmtCheck (cell : List Char) : List (List Char) :=
  ["cargo".data, "run".data, "-p".data, "z1-cli".data, "--".data,
    "fmt".data, cell, "--check".data]

/-- Argv of step 5, `z1 fmt relaxed`. -/
def argsRelaxed (cell : List Char) : List (List Char) :=
  ["cargo".data, "run".data, "-p".data, "z1-cli".data, "--".data,
    "fmt".data, cell, "--mode".data, "relaxed".data, "--stdout".data]

/-- Argv of step 6, `z1 hash`. -/
def argsHash (cell : List Char) : List (List Char) :=
  ["cargo".data, "run".data, "-p".data, "z1-cli".data, "--".data,
    "hash".data, cell]

/-- Argv of step 7, `z1 ctx`. -/
def argsCtx (cell : List Char) : List (List Char) :=
  ["cargo".data, "run".data, "-p".data, "z1-cli".data, "--".data,
    "ctx".data, cell, "--verbose".data, "--no-enforce".data]

/-- The truncation `main` applies to each command payload before
serialization: `truncate` (at the default limit) on the `stdout` and
`stderr` fields. -/
def truncPayload (r : CommandResult) : CommandResult :=
  { r with stdout := truncate r.stdout TRUNCATE_LIMIT
           stderr := truncate r.stderr TRUNCATE_LIMIT }

/-- `main()` for a fixed cell argument: `ensure_cell`, then the seven
pipeline steps in their fixed order (each aborting the run when its
process exits nonzero), then the cell metrics, the two stream parsers,
and the report.  The trace records which commands were invoked; the
error output accumulates what the failing step echoed. -/
def mainRun (env : Env) : MainOut :=
  if env.cellExists = false then ⟨[], [], .error .cellNotFound⟩
  else
    let l1 := "cargo fmt".data
    let (e1, r1) := run_command env.execFmt l1 argsFmt false
    match r1 with
    | .error err => ⟨[l1], e1, .error (.commandFailed err)⟩
    | .ok c1 =>
    let l2 := "cargo clippy".data
    let (e2, r2) := run_command env.execClippy l2 argsClippy false
    match r2 with
    | .error err => ⟨[l1, l2], e1 ++ e2, .error (.commandFailed err)⟩
    | .ok c2 =>
    let l3 := "cargo test".data
    let (e3, r3) := run_command env.execTest l3 argsTest false
    match r3 with
    | .error err => ⟨[l1, l2, l3], e1 ++ e2 ++ e3, .error (.commandFailed err)⟩
    | .ok c3 =>
    let l4 := "z1 fmt --check".data
    let (e4, r4) := run_command env.execFmtCheck l4 (argsFmtCheck env.cellPathStr) false
    match r4 with
    | .error err => ⟨[l1, l2, l3, l4], e1 ++ e2 ++ e3 ++ e4, .error (.commandFailed err)⟩
    | .ok c4 =>
    let l5 := "z1 fmt relaxed".data
    let (e5, r5) := run_command env.execRelaxed l5 (argsRelaxed env.cellPathStr) true
    match r5 with
    | .error err => ⟨[l1, l2, l3, l4, l5], e1 ++ e2 ++ e3 ++ e4 ++ e5,
        .error (.commandFailed err)⟩
    | .ok c5 =>
    let l6 := "z1 hash".data
    let (e6, r6) := run_command env.execHash l6 (argsHash env.cellPathStr) true
    match r6 with
    | .error err => ⟨[l1, l2, l3, l4, l5, l6], e1 ++ e2 ++ e3 ++ e4 ++ e5 ++ e6,
        .error (.commandFailed err)⟩
    | .ok c6 =>
    let l7 := "z1 ctx".data
    let (e7, r7) := run_command env.execCtx l7 (argsCtx env.cellPathStr) true
    match r7 with
    | .error err => ⟨[l1, l2, l3, l4, l5, l6, l7],
        e1 ++ e2 ++ e3 ++ e4 ++ e5 ++ e6 ++ e7, .error (.commandFailed err)⟩
    | .ok c7 =>
    let allTrace := [l1, l2, l3, l4, l5, l6, l7]
    let allErr := e1 ++ e2 ++ e3 ++ e4 ++ e5 ++ e6 ++ e7
    let compact_text := env.cellText
    let relaxed_text := (c5.stdout).getD []
    let compact_bytes := utf8Len compact_text
    let relaxed_bytes := utf8Len relaxed_text
    match parse_ctx_output ((c7.stdout).getD []) with
    | .error e => ⟨allTrace, allErr, .error (.ctxError e)⟩
    | .ok ctxm =>
      ⟨allTrace, allErr, .ok
        { meta :=
            { git_head := env.gitHead
              timestamp := env.timestamp
              cell := env.cellRelPath
              cell_metrics :=
                { compact_chars := compact_text.length
                  compact_bytes := compact_bytes
                  relaxed_chars := relaxed_text.length
                  relaxed_bytes := relaxed_bytes
                  compression_ratio := compression_ratio compact_bytes relaxed_bytes }
              hashes := parse_hash_output ((c6.stdout).getD [])
              context := ctxm }
          commands := [truncPayload c1, truncPayload c2, truncPayload c3,
            truncPayload c4, truncPayload c5, truncPayload c6, truncPayload c7] }⟩

/-- A concrete environment in which every pipeline command succeeds,
used to instantiate the end-to-end theorems. -/
def env0 : Env :=
  { cellExists := true
    cellText := "cell".data
    cellPathStr := "/repo/fixtures/cells/http_server.z1c".data
    cellRelPath := "fixtures/cells/http_server.z1c".data
    gitHead := "deadbeef".data
    timestamp := "2026-01-01T00:00:00+00:00".data
    execFmt := ⟨0, [], [], 0⟩
    execClippy := ⟨0, [], [], 0⟩
    execTest := ⟨0, [], [], 0⟩
    execFmtCheck := ⟨0, [], [], 0⟩
    execRelaxed := ⟨0, "relaxed text".data, [], 0⟩
    execHash := ⟨0, "semhash: abc\nformhash: def".data, [], 0⟩
    execCtx := ⟨0, "Total tokens: 1".data, [], 0⟩ }

/-! ## Theorems -/

/-- C3: for every text `T` and limit `L ≥ 0`, the Text Truncator
returns `T` unchanged when `len(T) ≤ L` (counting characters); when
`len(T) > L` it returns the first `L` characters of `T` followed by a
newline and the marker naming exactly `len(T) - L` omitted characters,
so the output length is `L` plus the marker overhead (one newline plus
the marker text). -/
theorem c3_truncate_contract (T : List Char) (L : Nat) :
    (T.length ≤ L → truncate (some T) L = some T) ∧
    (L < T.length →
      truncate (some T) L = some (T.take L ++ '\n' :: truncMarker (T.length - L)) ∧
      (T.take L ++ '\n' :: truncMarker (T.length - L)).length =
        L + (1 + (truncMarker (T.length - L)).length)) := by
  refine ⟨fun h => by simp [truncate, h], fun h => ⟨?_, ?_⟩⟩
  · simp [truncate, Nat.not_le.2 h]
  · simp only [List.length_append, List.length_take, List.length_cons]
    omega

/-- Witness for C3 at `T = "abcd"`: under the limit the text passes
through; over the limit the truncated form and its length arise. -/
theorem c3_truncate_contract_witness :
    (truncate (some "abcd".data) 9 = some "abcd".data) ∧
    (truncate (some "abcd".data) 2 =
      some ("abcd".data.take 2 ++ '\n' :: truncMarker ("abcd".data.length - 2)) ∧
    ("abcd".data.take 2 ++ '\n' :: truncMarker ("abcd".data.length - 2)).length =
      2 + (1 + (truncMarker ("abcd".data.length - 2)).length)) :=
  ⟨(c3_truncate_contract "abcd".data 9).1 (by decide),
    (c3_truncate_contract "abcd".data 2).2 (by decide)⟩

/-- C4: the compression ratio equals `relaxed_bytes / compact_bytes`
rounded to 4 decimal places whenever `compact_bytes` is nonzero (so
`compact_bytes = 100, relaxed_bytes = 150` gives `1.5`), and is absent
(`none`, never zero, infinity or a division error) whenever
`compact_bytes` is `0`. -/
theorem c4_compression_ratio_rule (cb rb : Nat) :
    (cb ≠ 0 → compression_ratio cb rb = some (round4 ((rb : ℚ) / (cb : ℚ)))) ∧
    compression_ratio 100 150 = some (3 / 2 : ℚ) ∧
    compression_ratio 0 rb = none := by
  refine ⟨fun h => ?_, ?_, by simp [compression_ratio]⟩
  · have : ((rb : ℤ) : ℚ) / ((cb : ℕ) : ℚ) = (rb : ℚ) / (cb : ℚ) := by push_cast; ring
    simp [compression_ratio, h, Rat.mkRat_eq_div, this]
  · have h1 : compression_ratio 100 150 = some (mkRat 3 2) := by decide
    have h2 : mkRat 3 2 = (3 / 2 : ℚ) := by
      rw [Rat.mkRat_eq_div]; norm_num
    rw [h1, h2]

/-- Witness for C4 at `compact_bytes = 100, relaxed_bytes = 150`. -/
theorem c4_compression_ratio_rule_witness :
    compression_ratio 100 150 = some (round4 ((150 : ℚ) / (100 : ℚ))) :=
  (c4_compression_ratio_rule 100 150).1 (by decide)

/-- `hashStep` leaves the mapping unchanged on a line without a colon
or whose stripped key is not one of the two recognised names. -/
theorem hashStep_id (h : ParsedHashes) (l : List Char)
    (hno : ∀ p ∈ splitAtColon l,
      pyStrip p.1 ≠ "semhash".data ∧ pyStrip p.1 ≠ "formhash".data) :
    hashStep h l = h := by
  unfold hashStep
  cases hsp : splitAtColon l with
  | none => rfl
  | some p =>
    obtain ⟨h1, h2⟩ := hno p (by simp [hsp])
    simp [h1, h2]

/-- C5: the Hash-Listing Parser splits each line once on the first
colon, trims both parts, records only `semhash` and `formhash` with
last-occurrence-wins; lines without a colon or with unrecognised keys
produce no entries; on the spec's input it returns exactly
`{semhash: "abc123", formhash: "def456"}`; it is total (never fails)
and when no line carries a recognised key it returns the empty
mapping. -/
theorem c5_hash_parser_contract :
    parse_hash_output "semhash: abc123\nformhash: def456\nnoise line\n".data =
      ⟨some "abc123".data, some "def456".data⟩ ∧
    (∀ (ls : List (List Char)) (l k v : List Char),
      splitAtColon l = some (k, v) → pyStrip k = "semhash".data →
      ((ls ++ [l]).foldl hashStep ⟨none, none⟩).semhash = some (pyStrip v)) ∧
    (∀ (ls : List (List Char)) (l k v : List Char),
      splitAtColon l = some (k, v) → pyStrip k = "formhash".data →
      ((ls ++ [l]).foldl hashStep ⟨none, none⟩).formhash = some (pyStrip v)) ∧
    (∀ (h : ParsedHashes) (l : List Char),
      (∀ p ∈ splitAtColon l,
        pyStrip p.1 ≠ "semhash".data ∧ pyStrip p.1 ≠ "formhash".data) →
      hashStep h l = h) ∧
    (∀ output : List Char,
      (∀ l ∈ splitlines output, ∀ p ∈ splitAtColon l,
        pyStrip p.1 ≠ "semhash".data ∧ pyStrip p.1 ≠ "formhash".data) →
      parse_hash_output output = ⟨none, none⟩) := by
  refine ⟨by decide, ?_, ?_, fun h l hno => hashStep_id h l hno, ?_⟩
  · intro ls l k v hsp hk
    rw [List.foldl_append]
    simp [hashStep, hsp, hk]
  · intro ls l k v hsp hk
    rw [List.foldl_append]
    have : pyStrip k ≠ "semhash".data := by rw [hk]; decide
    simp [hashStep, hsp, hk, this]
  · intro output hout
    unfold parse_hash_output
    generalize hL : splitlines output = L at hout
    clear hL
    induction L with
    | nil => rfl
    | cons l ls ih =>
      rw [List.foldl_cons, hashStep_id _ l (hout l (by simp))]
      exact ih fun x hx => hout x (by simp [hx])

/-- Witness for C5: last-occurrence-wins on a duplicated `semhash`
line, a duplicated `formhash` line, an inert noise line, and the
all-noise input. -/
theorem c5_hash_parser_contract_witness :
    (((["semhash: OLD".data] ++ ["semhash:  abc ".data]).foldl hashStep
        ⟨none, none⟩).semhash = some (pyStrip "  abc ".data)) ∧
    (((["formhash: OLD".data] ++ ["formhash: def".data]).foldl hashStep
        ⟨none, none⟩).formhash = some (pyStrip " def".data)) ∧
    (hashStep ⟨some "x".data, none⟩ "unknown: 3".data = ⟨some "x".data, none⟩) ∧
    (parse_hash_output "noise\nother: 1\n".data = ⟨none, none⟩) :=
  ⟨c5_hash_parser_contract.2.1 ["semhash: OLD".data] "semhash:  abc ".data
      "semhash".data "  abc ".data (by decide) (by decide),
    c5_hash_parser_contract.2.2.1 ["formhash: OLD".data] "formhash: def".data
      "formhash".data " def".data (by decide) (by decide),
    c5_hash_parser_contract.2.2.2.1 ⟨some "x".data, none⟩ "unknown: 3".data
      (by decide),
    c5_hash_parser_contract.2.2.2.2 "noise\nother: 1\n".data (by decide)⟩

/-- C6: the Command Runner raises a fatal error carrying the return
code and argument vector if and only if the child exits nonzero; when
it raises with capture enabled, the captured stdout then the captured
stderr are written verbatim to the parent's error stream; on success it
returns a `CommandResult` whose `stdout`/`stderr` are present exactly
when the capture flag was true and absent (`none`, not an empty string)
otherwise. -/
theorem c6_run_command_contract (exec : Exec) (label : List Char)
    (args : List (List Char)) (capture : Bool) :
    ((∃ e, (run_command exec label args capture).2 = .error e) ↔
      exec.returncode ≠ 0) ∧
    (exec.returncode ≠ 0 →
      (run_command exec label args capture).2 = .error ⟨exec.returncode, args⟩ ∧
      (capture = true →
        (run_command exec label args capture).1 = exec.stdout ++ exec.stderr)) ∧
    (exec.returncode = 0 →
      (run_command exec label args capture).2 = .ok
        { label := label
          command := shlexJoin args
          duration_s := exec.duration_s
          returncode := exec.returncode
          stdout := if capture then some exec.stdout else none
          stderr := if capture then some exec.stderr else none }) := by
  by_cases h : exec.returncode = 0
  · refine ⟨?_, fun hn => absurd h hn, fun _ => by simp [run_command, h]⟩
    simp [run_command, h]
  · refine ⟨?_, fun _ => ⟨by simp [run_command, h], fun hc => by simp [run_command, h, hc]⟩,
      fun h0 => absurd h0 h⟩
    simp [run_command, h]

/-- Witness for C6: a failing captured command raises with its return
code and argv after echoing both streams; a succeeding uncaptured
command returns absent stream fields. -/
theorem c6_run_command_contract_witness :
    ((run_command ⟨2, "out".data, "err".data, 0⟩ "lbl".data ["x".data] true).2 =
      .error ⟨2, ["x".data]⟩ ∧
      (true = true →
        (run_command ⟨2, "out".data, "err".data, 0⟩ "lbl".data ["x".data] true).1 =
          "out".data ++ "err".data)) ∧
    ((run_command ⟨0, "out".data, "err".data, 0⟩ "lbl".data ["x".data] false).2 =
      .ok { label := "lbl".data
            command := shlexJoin ["x".data]
            duration_s := 0
            returncode := 0
            stdout := if false then some "out".data else none
            stderr := if false then some "err".data else none }) :=
  ⟨(c6_run_command_contract ⟨2, "out".data, "err".data, 0⟩ "lbl".data
      ["x".data] true).2.1 (by decide),
    (c6_run_command_contract ⟨0, "out".data, "err".data, 0⟩ "lbl".data
      ["x".data] false).2.2 (by decide)⟩

/-- C10: the per-entry pattern is matched as a PREFIX of the stripped
line (`re.match`), not against the whole line: after the closing
parenthesis of `(40 chars)` arbitrary extra text may follow and the
match still succeeds with the same groups; in particular the line
`- foo: 10 tokens (40 chars) EXTRA` still appends the entry
`{name: "foo", tokens: 10, chars: 40}`. -/
theorem c10_entry_pattern_is_prefix_match :
    (∀ rest : List Char,
      fnMatch ("- foo: 10 tokens (40 chars)".data ++ rest) =
        some ("foo".data, 10, 40)) ∧
    parse_ctx_output "- foo: 10 tokens (40 chars) EXTRA".data =
      .ok { raw := "- foo: 10 tokens (40 chars) EXTRA".data
            total_tokens := none
            budget := none
            usage_percent := none
            char_count := none
            functions := some [⟨"foo".data, 10, 40⟩] } :=
  ⟨fun _ => rfl, by decide⟩

/-- Witness for C10 at the concrete tail `" EXTRA"`. -/
theorem c10_entry_pattern_is_prefix_match_witness :
    fnMatch ("- foo: 10 tokens (40 chars)".data ++ " EXTRA".data) =
      some ("foo".data, 10, 40) :=
  c10_entry_pattern_is_prefix_match.1 " EXTRA".data

/-- A string beginning (via `startswith`) with `c :: p` has head `c`. -/
theorem startsWithL_head (s : List Char) (c : Char) (p : List Char)
    (h : startsWithL s (c :: p) = true) : ∃ t, s = c :: t := by
  cases s with
  | nil => simp [startsWithL] at h
  | cons d t =>
    simp only [startsWithL, Bool.and_eq_true, decide_eq_true_eq] at h
    exact ⟨t, by rw [h.1]⟩

/-- A `Usage:` line whose remainder (stripped, trailing `%` removed)
does not parse as a float is a complete no-op: the state is returned
unchanged (the `ValueError` is swallowed). -/
theorem processLine_usage_skip (S : CtxState) (u : List Char)
    (h1 : startsWithL (pyStrip u) usLabel = true)
    (h2 : pyFloat? (rstripPercent (pyStrip (afterColon (pyStrip u)))) = none) :
    processLine S u = .ok S := by
  obtain ⟨t, ht⟩ := startsWithL_head (pyStrip u) 'U' "sage:".data h1
  rw [ht] at h1 h2
  have htt : startsWithL ('U' :: t) ttLabel = false := rfl
  have hbd : startsWithL ('U' :: t) bdLabel = false := rfl
  simp only [processLine, ht, htt, hbd, h1, h2, Bool.false_eq_true, if_false, if_true]

/-- A `Characters:` line whose remainder does not parse as an integer
raises the fatal `ValueError`. -/
theorem processLine_chars_fatal (S : CtxState) (c : List Char)
    (h1 : startsWithL (pyStrip c) ccLabel = true)
    (h2 : pyInt? (pyStrip (afterColon (pyStrip c))) = none) :
    processLine S c = .error (.intParse (pyStrip (afterColon (pyStrip c)))) := by
  obtain ⟨t, ht⟩ := startsWithL_head (pyStrip c) 'C' "haracters:".data h1
  rw [ht] at h1 h2
  have htt : startsWithL ('C' :: t) ttLabel = false := rfl
  have hbd : startsWithL ('C' :: t) bdLabel = false := rfl
  have hus : startsWithL ('C' :: t) usLabel = false := rfl
  simp only [processLine, ht, htt, hbd, hus, h1, h2, Bool.false_eq_true, if_false,
    if_true]

/-- C2: for every surrounding line context, a `Usage:` line whose
remainder does not parse as a float (e.g. `Usage: N/A%`) leaves the
state — in particular `usage_percent` — unchanged and parsing of the
remaining lines continues (the whole fold behaves as if the line were
absent), whereas a `Characters:` line whose remainder does not parse as
an integer makes the parser raise the fatal error as soon as it is
reached. -/
theorem c2_usage_tolerated_characters_fatal :
    (∀ (S0 : CtxState) (L1 L2 : List (List Char)) (u : List Char),
      startsWithL (pyStrip u) usLabel = true →
      pyFloat? (rstripPercent (pyStrip (afterColon (pyStrip u)))) = none →
      foldCtx S0 (L1 ++ u :: L2) = foldCtx S0 (L1 ++ L2)) ∧
    (∀ (S0 S : CtxState) (L1 L2 : List (List Char)) (c : List Char),
      startsWithL (pyStrip c) ccLabel = true →
      pyInt? (pyStrip (afterColon (pyStrip c))) = none →
      foldCtx S0 L1 = .ok S →
      foldCtx S0 (L1 ++ c :: L2) =
        .error (.intParse (pyStrip (afterColon (pyStrip c))))) := by
  constructor
  · intro S0 L1 L2 u h1 h2
    induction L1 generalizing S0 with
    | nil =>
      rw [List.nil_append, List.nil_append]
      simp only [foldCtx, processLine_usage_skip S0 u h1 h2]
    | cons l ls ih =>
      rw [List.cons_append, List.cons_append]
      simp only [foldCtx]
      cases hp : processLine S0 l with
      | ok S2 => exact ih S2
      | error e => rfl
  · intro S0 S L1 L2 c h1 h2 hok
    induction L1 generalizing S0 with
    | nil =>
      rw [List.nil_append]
      simp only [foldCtx, processLine_chars_fatal S0 c h1 h2]
    | cons l ls ih =>
      rw [List.cons_append]
      simp only [foldCtx] at hok ⊢
      cases hp : processLine S0 l with
      | ok S2 =>
        rw [hp] at hok
        exact ih S2 hok
      | error e =>
        rw [hp] at hok
        exact absurd hok (by simp)

/-- Witness for C2: `Usage: N/A%` between two scalar lines is dropped
from the fold; `Characters: x` after a well-parsed prefix raises. -/
theorem c2_usage_tolerated_characters_fatal_witness :
    (foldCtx ctxInit (["Budget: 7".data] ++ "Usage: N/A%".data ::
        ["Total tokens: 5".data]) =
      foldCtx ctxInit (["Budget: 7".data] ++ ["Total tokens: 5".data])) ∧
    (foldCtx ctxInit (["Budget: 7".data] ++ "Characters: x".data ::
        ["Total tokens: 5".data]) =
      .error (.intParse (pyStrip (afterColon (pyStrip "Characters: x".data))))) :=
  ⟨c2_usage_tolerated_characters_fatal.1 ctxInit ["Budget: 7".data]
      ["Total tokens: 5".data] "Usage: N/A%".data (by decide) (by decide),
    c2_usage_tolerated_characters_fatal.2 ctxInit
      ⟨none, some 7, none, none, []⟩ ["Budget: 7".data]
      ["Total tokens: 5".data] "Characters: x".data (by decide) (by decide)
      (by decide)⟩

/-- A line whose stripped form starts with a character other than the
dash can never contribute an entry: the per-entry pattern requires a
leading `-`. -/
theorem entryOfLine_none_of_startsWith (l : List Char) (c : Char) (p : List Char)
    (hc : ¬c = '-') (h : startsWithL (pyStrip l) (c :: p) = true) :
    entryOfLine l = none := by
  obtain ⟨t, ht⟩ := startsWithL_head (pyStrip l) c p h
  unfold entryOfLine
  rw [ht]
  simp [fnMatch, hc]

/-- One loop iteration appends to `functions` exactly the entry its
line contributes (nothing for the four scalar rules and non-matching
lines; the matched entry, in place, for an entry line). -/
theorem processLine_functions (S : CtxState) (l : List Char) (S' : CtxState)
    (h : processLine S l = .ok S') :
    S'.functions = S.functions ++ (entryOfLine l).toList := by
  by_cases h1 : startsWithL (pyStrip l) ttLabel = true
  · rw [entryOfLine_none_of_startsWith l 'T' _ (by decide) h1, Option.toList_none,
      List.append_nil]
    by_cases hv : (pyStrip (afterColon (pyStrip l))).isEmpty = true
    · simp only [processLine, h1, hv, if_true] at h
      cases h; rfl
    · cases hm : pyInt? (pyStrip (afterColon (pyStrip l))) with
      | some n =>
        simp [processLine, h1, hv, hm] at h
        rw [← h]
      | none => simp [processLine, h1, hv, hm] at h
  · by_cases h2 : startsWithL (pyStrip l) bdLabel = true
    · rw [entryOfLine_none_of_startsWith l 'B' _ (by decide) h2, Option.toList_none,
        List.append_nil]
      by_cases hv : (pyStrip (afterColon (pyStrip l))).isEmpty = true
      · simp only [processLine, h1, h2, hv, if_true, if_false] at h
        cases h; rfl
      · cases hm : pyInt? (pyStrip (afterColon (pyStrip l))) with
        | some n =>
          simp [processLine, h1, h2, hv, hm] at h
          rw [← h]
        | none => simp [processLine, h1, h2, hv, hm] at h
    · by_cases h3 : startsWithL (pyStrip l) usLabel = true
      · rw [entryOfLine_none_of_startsWith l 'U' _ (by decide) h3, Option.toList_none,
          List.append_nil]
        cases hm : pyFloat? (rstripPercent (pyStrip (afterColon (pyStrip l)))) with
        | some q =>
          simp [processLine, h1, h2, h3, hm] at h
          rw [← h]
        | none =>
          simp [processLine, h1, h2, h3, hm] at h
          rw [← h]
      · by_cases h4 : startsWithL (pyStrip l) ccLabel = true
        · rw [entryOfLine_none_of_startsWith l 'C' _ (by decide) h4, Option.toList_none,
            List.append_nil]
          cases hm : pyInt? (pyStrip (afterColon (pyStrip l))) with
          | some n =>
            simp [processLine, h1, h2, h3, h4, hm] at h
            rw [← h]
          | none => simp [processLine, h1, h2, h3, h4, hm] at h
        · unfold entryOfLine
          cases hm : fnMatch (pyStrip l) with
          | some g =>
            simp [processLine, h1, h2, h3, h4, hm] at h
            rw [← h]
            simp
          | none =>
            simp [processLine, h1, h2, h3, h4, hm] at h
            rw [← h]
            simp

/-- The `functions` list accumulated by the loop is the in-order
`filterMap` of the per-line entries over the processed lines. -/
theorem foldCtx_functions (L : List (List Char)) :
    ∀ (S m : CtxState), foldCtx S L = .ok m →
      m.functions = S.functions ++ L.filterMap entryOfLine := by
  induction L with
  | nil =>
    intro S m h
    cases h
    simp
  | cons l ls ih =>
    intro S m h
    simp only [foldCtx] at h
    cases hp : processLine S l with
    | ok S2 =>
      rw [hp] at h
      rw [ih S2 m h, processLine_functions S l S2 hp, List.filterMap_cons]
      cases he : entryOfLine l <;> simp [List.append_assoc]
    | error e =>
      rw [hp] at h
      exact absurd h (by simp)

/-- C9: whenever the Context-Report Parser succeeds, its `functions`
sequence is exactly the in-order `filterMap` of the per-entry pattern
over the input's lines — entries appear in the order their lines occur,
never re-sorted — and the field is present (`some`) precisely when at
least one entry line matched, absent (`none`) otherwise. -/
theorem c9_functions_order_and_presence (T : List Char) (m : CtxMetrics)
    (h : parse_ctx_output T = .ok m) :
    m.functions =
      (if ((splitlines T).filterMap entryOfLine).isEmpty then none
       else some ((splitlines T).filterMap entryOfLine)) := by
  unfold parse_ctx_output at h
  cases hf : foldCtx ctxInit (splitlines T) with
  | ok S =>
    rw [hf] at h
    cases h
    have hfn := foldCtx_functions (splitlines T) ctxInit S hf
    simp only [ctxInit, List.nil_append] at hfn
    rw [hfn]
  | error e =>
    rw [hf] at h
    exact absurd h (by simp)

/-- Witness for C9: one noise line followed by one entry line. -/
theorem c9_functions_order_and_presence_witness :
    (CtxMetrics.mk "x\n- a: 1 tokens (2 chars)".data none none none none
        (some [⟨"a".data, 1, 2⟩])).functions =
      (if ((splitlines "x\n- a: 1 tokens (2 chars)".data).filterMap
          entryOfLine).isEmpty then none
       else some ((splitlines "x\n- a: 1 tokens (2 chars)".data).filterMap
          entryOfLine)) :=
  c9_functions_order_and_presence "x\n- a: 1 tokens (2 chars)".data
    (CtxMetrics.mk "x\n- a: 1 tokens (2 chars)".data none none none none
      (some [⟨"a".data, 1, 2⟩])) (by decide)

/-- The canonical `Total tokens:` line sets `total_tokens := 150` and
nothing else. -/
theorem processLine_ttLine (S : CtxState) :
    processLine S ttLine = .ok { S with total_tokens := some 150 } := rfl

/-- The canonical `Budget:` line sets `budget := 200`. -/
theorem processLine_bdLine (S : CtxState) :
    processLine S bdLine = .ok { S with budget := some 200 } := rfl

/-- The canonical `Usage:` line sets `usage_percent := 75`. -/
theorem processLine_usLine (S : CtxState) :
    processLine S usLine = .ok { S with usage_percent := some (mkRat 750 10) } := rfl

/-- The canonical `Characters:` line sets `char_count := 900`. -/
theorem processLine_ccLine (S : CtxState) :
    processLine S ccLine = .ok { S with char_count := some 900 } := rfl

/-- The canonical entry line appends the `foo` entry. -/
theorem processLine_fooLine (S : CtxState) :
    processLine S fooLine =
      .ok { S with functions := S.functions ++ [fooEntry] } := rfl

/-- An inert line leaves the state untouched. -/
theorem processLine_inert (S : CtxState) (l : List Char) (h : inertLine l) :
    processLine S l = .ok S := by
  obtain ⟨htt, hbd, hus, hcc, hfm⟩ := h
  simp [processLine, htt, hbd, hus, hcc, hfm]

/-- An inert line is none of the five canonical lines (each canonical
line matches one of the parser's rules). -/
theorem inert_ne (l : List Char) (h : inertLine l) :
    l ≠ ttLine ∧ l ≠ bdLine ∧ l ≠ usLine ∧ l ≠ ccLine ∧ l ≠ fooLine := by
  refine ⟨?_, ?_, ?_, ?_, ?_⟩ <;> rintro rfl <;> exact absurd h (by decide)

/-- Folding the loop over any list of lines built from the five
canonical lines and inert lines: each scalar ends up set exactly when
its line occurs, and `functions` gains one `foo` entry per occurrence
of the entry line. -/
theorem foldCtx_canonical (L : List (List Char)) :
    ∀ S : CtxState, (∀ l ∈ L, l ∈ fiveLines ∨ inertLine l) →
      foldCtx S L = .ok
        { total_tokens := if ttLine ∈ L then some 150 else S.total_tokens
          budget := if bdLine ∈ L then some 200 else S.budget
          usage_percent := if usLine ∈ L then some (mkRat 750 10) else S.usage_percent
          char_count := if ccLine ∈ L then some 900 else S.char_count
          functions := S.functions ++ List.replicate (L.count fooLine) fooEntry } := by
  induction L with
  | nil =>
    intro S _
    simp [foldCtx]
  | cons l ls ih =>
    intro S hall
    have hl := hall l (List.mem_cons_self l ls)
    have hrest : ∀ x ∈ ls, x ∈ fiveLines ∨ inertLine x :=
      fun x hx => hall x (List.mem_cons_of_mem l hx)
    rcases hl with hfive | hin
    · simp only [fiveLines, List.mem_cons, List.not_mem_nil, or_false] at hfive
      rcases hfive with rfl | rfl | rfl | rfl | rfl
      · simp only [foldCtx, processLine_ttLine]
        rw [ih { S with total_tokens := some 150 } hrest]
        simp [List.mem_cons, List.count_cons, ite_self,
          (by decide : bdLine ≠ ttLine), (by decide : usLine ≠ ttLine),
          (by decide : ccLine ≠ ttLine), (by decide : fooLine ≠ ttLine)]
      · simp only [foldCtx, processLine_bdLine]
        rw [ih { S with budget := some 200 } hrest]
        simp [List.mem_cons, List.count_cons, ite_self,
          (by decide : ttLine ≠ bdLine), (by decide : usLine ≠ bdLine),
          (by decide : ccLine ≠ bdLine), (by decide : fooLine ≠ bdLine)]
      · simp only [foldCtx, processLine_usLine]
        rw [ih { S with usage_percent := some (mkRat 750 10) } hrest]
        simp [List.mem_cons, List.count_cons, ite_self,
          (by decide : ttLine ≠ usLine), (by decide : bdLine ≠ usLine),
          (by decide : ccLine ≠ usLine), (by decide : fooLine ≠ usLine)]
      · simp only [foldCtx, processLine_ccLine]
        rw [ih { S with char_count := some 900 } hrest]
        simp [List.mem_cons, List.count_cons, ite_self,
          (by decide : ttLine ≠ ccLine), (by decide : bdLine ≠ ccLine),
          (by decide : usLine ≠ ccLine), (by decide : fooLine ≠ ccLine)]
      · simp only [foldCtx, processLine_fooLine]
        rw [ih { S with functions := S.functions ++ [fooEntry] } hrest]
        simp [List.mem_cons, List.count_cons, List.replicate_succ,
          List.append_assoc,
          (by decide : ttLine ≠ fooLine), (by decide : bdLine ≠ fooLine),
          (by decide : usLine ≠ fooLine), (by decide : ccLine ≠ fooLine)]
    · obtain ⟨n1, n2, n3, n4, n5⟩ := inert_ne l hin
      simp only [foldCtx, processLine_inert S l hin]
      rw [ih S hrest]
      simp [List.mem_cons, List.count_cons, Ne.symm n1, Ne.symm n2,
        Ne.symm n3, Ne.symm n4, Ne.symm n5]

/-- C1 counterexample: `ctxCexInput` contains all five canonical lines
(so it satisfies the claim's premise), yet the parser's `functions`
list is not `[foo]` — a second entry line also matched, so the claim's
universally-quantified conclusion fails at this input. -/
theorem c1_counterexample_extra_entry :
    ttLine ∈ splitlines ctxCexInput ∧
    bdLine ∈ splitlines ctxCexInput ∧
    usLine ∈ splitlines ctxCexInput ∧
    ccLine ∈ splitlines ctxCexInput ∧
    fooLine ∈ splitlines ctxCexInput ∧
    parse_ctx_output ctxCexInput = .ok ctxCexOutput ∧
    ctxCexOutput.functions ≠ some [fooEntry] := by decide

/-- C1 (amended): for every input text whose lines include the five
canonical lines `Total tokens: 150`, `Budget: 200`, `Usage: 75.0%`,
`Characters: 900` and `- foo: 10 tokens (40 chars)`, whose entry line
occurs exactly once, and whose remaining lines match none of the
parser's rules, the Context-Report Parser returns
`total_tokens = 150`, `budget = 200`, `usage_percent = 75.0`,
`char_count = 900`, `functions = [{name: "foo", tokens: 10, chars: 40}]`,
and the result's `raw` field equals the full input text. -/
theorem c1_ctx_parser_canonical_amended (T : List Char)
    (htt : ttLine ∈ splitlines T) (hbd : bdLine ∈ splitlines T)
    (hus : usLine ∈ splitlines T) (hcc : ccLine ∈ splitlines T)
    (hfoo : (splitlines T).count fooLine = 1)
    (hall : ∀ l ∈ splitlines T, l ∈ fiveLines ∨ inertLine l) :
    parse_ctx_output T = .ok
      { raw := T
        total_tokens := some 150
        budget := some 200
        usage_percent := some (75 : ℚ)
        char_count := some 900
        functions := some [fooEntry] } := by
  unfold parse_ctx_output
  rw [foldCtx_canonical (splitlines T) ctxInit hall]
  have h75 : mkRat 750 10 = (75 : ℚ) := by decide
  simp [htt, hbd, hus, hcc, hfoo, ctxInit, h75]

/-- Witness for the amended C1 at the five-line input itself. -/
theorem c1_ctx_parser_canonical_amended_witness :
    parse_ctx_output ctxOkInput = .ok
      { raw := ctxOkInput
        total_tokens := some 150
        budget := some 200
        usage_percent := some (75 : ℚ)
        char_count := some 900
        functions := some [fooEntry] } :=
  c1_ctx_parser_canonical_amended ctxOkInput (by decide) (by decide) (by decide)
    (by decide) (by decide) (by decide)

/-- C7: when the cell exists, every pipeline command exits zero and the
context report parses, the run succeeds and the written report's
`commands` array contains exactly the 7 command records in the fixed
execution order (format, lint, tests, artifact format-check, relaxed
format, hash, context), `meta.cell` equals the artifact path relative
to the project root, and the Text Truncator (at limit 2000, via
`truncPayload`) has been applied to every captured `stdout`/`stderr`
field before serialization (uncaptured fields stay absent). -/
theorem c7_success_report (env : Env)
    (hc : env.cellExists = true)
    (h1 : env.execFmt.returncode = 0) (h2 : env.execClippy.returncode = 0)
    (h3 : env.execTest.returncode = 0) (h4 : env.execFmtCheck.returncode = 0)
    (h5 : env.execRelaxed.returncode = 0) (h6 : env.execHash.returncode = 0)
    (h7 : env.execCtx.returncode = 0)
    (m : CtxMetrics) (hctx : parse_ctx_output env.execCtx.stdout = .ok m) :
    (mainRun env).result = .ok
      { meta :=
          { git_head := env.gitHead
            timestamp := env.timestamp
            cell := env.cellRelPath
            cell_metrics :=
              { compact_chars := env.cellText.length
                compact_bytes := utf8Len env.cellText
                relaxed_chars := env.execRelaxed.stdout.length
                relaxed_bytes := utf8Len env.execRelaxed.stdout
                compression_ratio :=
                  compression_ratio (utf8Len env.cellText)
                    (utf8Len env.execRelaxed.stdout) }
            hashes := parse_hash_output env.execHash.stdout
            context := m }
        commands :=
          [truncPayload ⟨"cargo fmt".data, shlexJoin argsFmt,
              env.execFmt.duration_s, env.execFmt.returncode, none, none⟩,
            truncPayload ⟨"cargo clippy".data, shlexJoin argsClippy,
              env.execClippy.duration_s, env.execClippy.returncode, none, none⟩,
            truncPayload ⟨"cargo test".data, shlexJoin argsTest,
              env.execTest.duration_s, env.execTest.returncode, none, none⟩,
            truncPayload ⟨"z1 fmt --check".data,
              shlexJoin (argsFmtCheck env.cellPathStr),
              env.execFmtCheck.duration_s, env.execFmtCheck.returncode, none, none⟩,
            truncPayload ⟨"z1 fmt relaxed".data,
              shlexJoin (argsRelaxed env.cellPathStr),
              env.execRelaxed.duration_s, env.execRelaxed.returncode,
              some env.execRelaxed.stdout, some env.execRelaxed.stderr⟩,
            truncPayload ⟨"z1 hash".data, shlexJoin (argsHash env.cellPathStr),
              env.execHash.duration_s, env.execHash.returncode,
              some env.execHash.stdout, some env.execHash.stderr⟩,
            truncPayload ⟨"z1 ctx".data, shlexJoin (argsCtx env.cellPathStr),
              env.execCtx.duration_s, env.execCtx.returncode,
              some env.execCtx.stdout, some env.execCtx.stderr⟩] } := by
  simp [mainRun, run_command, hc, h1, h2, h3, h4, h5, h6, h7, hctx]

/-- Witness for C7 in the all-success environment `env0`. -/
theorem c7_success_report_witness :
    (mainRun env0).result = .ok
      { meta :=
          { git_head := env0.gitHead
            timestamp := env0.timestamp
            cell := env0.cellRelPath
            cell_metrics :=
              { compact_chars := env0.cellText.length
                compact_bytes := utf8Len env0.cellText
                relaxed_chars := env0.execRelaxed.stdout.length
                relaxed_bytes := utf8Len env0.execRelaxed.stdout
                compression_ratio :=
                  compression_ratio (utf8Len env0.cellText)
                    (utf8Len env0.execRelaxed.stdout) }
            hashes := parse_hash_output env0.execHash.stdout
            context := ⟨"Total tokens: 1".data, some 1, none, none, none, none⟩ }
        commands :=
          [truncPayload ⟨"cargo fmt".data, shlexJoin argsFmt,
              env0.execFmt.duration_s, env0.execFmt.returncode, none, none⟩,
            truncPayload ⟨"cargo clippy".data, shlexJoin argsClippy,
              env0.execClippy.duration_s, env0.execClippy.returncode, none, none⟩,
            truncPayload ⟨"cargo test".data, shlexJoin argsTest,
              env0.execTest.duration_s, env0.execTest.returncode, none, none⟩,
            truncPayload ⟨"z1 fmt --check".data,
              shlexJoin (argsFmtCheck env0.cellPathStr),
              env0.execFmtCheck.duration_s, env0.execFmtCheck.returncode, none, none⟩,
            truncPayload ⟨"z1 fmt relaxed".data,
              shlexJoin (argsRelaxed env0.cellPathStr),
              env0.execRelaxed.duration_s, env0.execRelaxed.returncode,
              some env0.execRelaxed.stdout, some env0.execRelaxed.stderr⟩,
            truncPayload ⟨"z1 hash".data, shlexJoin (argsHash env0.cellPathStr),
              env0.execHash.duration_s, env0.execHash.returncode,
              some env0.execHash.stdout, some env0.execHash.stderr⟩,
            truncPayload ⟨"z1 ctx".data, shlexJoin (argsCtx env0.cellPathStr),
              env0.execCtx.duration_s, env0.execCtx.returncode,
              some env0.execCtx.stdout, some env0.execCtx.stderr⟩] } :=
  c7_success_report env0 rfl rfl rfl rfl rfl rfl rfl rfl
    ⟨"Total tokens: 1".data, some 1, none, none, none, none⟩ (by decide)

/-- C8: if the benchmark artifact does not exist this is reported
before any pipeline command runs (empty trace) and the run ends in the
uncaught error, hence nonzero exit and no report; and for EACH of the 7
pipeline positions, if that command exits nonzero (the preceding ones
having exited zero), only the commands up to and including it were
invoked — the remaining steps never run — the run ends in the uncaught
`CalledProcessError` carrying that return code and argv (no report is
produced), and for the capturing steps 5–7 the captured stdout then
stderr of the failing command is echoed to the parent's error
stream. -/
theorem c8_failfast_and_missing_cell :
    (∀ env : Env, env.cellExists = false →
      mainRun env = ⟨[], [], .error .cellNotFound⟩) ∧
    (∀ env : Env, env.cellExists = true →
      env.execFmt.returncode ≠ 0 →
      mainRun env = ⟨["cargo fmt".data], [],
        .error (.commandFailed ⟨env.execFmt.returncode, argsFmt⟩)⟩) ∧
    (∀ env : Env, env.cellExists = true →
      env.execFmt.returncode = 0 → env.execClippy.returncode ≠ 0 →
      mainRun env = ⟨["cargo fmt".data, "cargo clippy".data], [],
        .error (.commandFailed ⟨env.execClippy.returncode, argsClippy⟩)⟩) ∧
    (∀ env : Env, env.cellExists = true →
      env.execFmt.returncode = 0 → env.execClippy.returncode = 0 →
      env.execTest.returncode ≠ 0 →
      mainRun env = ⟨["cargo fmt".data, "cargo clippy".data, "cargo test".data],
        [], .error (.commandFailed ⟨env.execTest.returncode, argsTest⟩)⟩) ∧
    (∀ env : Env, env.cellExists = true →
      env.execFmt.returncode = 0 → env.execClippy.returncode = 0 →
      env.execTest.returncode = 0 → env.execFmtCheck.returncode ≠ 0 →
      mainRun env = ⟨["cargo fmt".data, "cargo clippy".data, "cargo test".data,
          "z1 fmt --check".data], [],
        .error (.commandFailed
          ⟨env.execFmtCheck.returncode, argsFmtCheck env.cellPathStr⟩)⟩) ∧
    (∀ env : Env, env.cellExists = true →
      env.execFmt.returncode = 0 → env.execClippy.returncode = 0 →
      env.execTest.returncode = 0 → env.execFmtCheck.returncode = 0 →
      env.execRelaxed.returncode ≠ 0 →
      mainRun env = ⟨["cargo fmt".data, "cargo clippy".data, "cargo test".data,
          "z1 fmt --check".data, "z1 fmt relaxed".data],
        env.execRelaxed.stdout ++ env.execRelaxed.stderr,
        .error (.commandFailed
          ⟨env.execRelaxed.returncode, argsRelaxed env.cellPathStr⟩)⟩) ∧
    (∀ env : Env, env.cellExists = true →
      env.execFmt.returncode = 0 → env.execClippy.returncode = 0 →
      env.execTest.returncode = 0 → env.execFmtCheck.returncode = 0 →
      env.execRelaxed.returncode = 0 → env.execHash.returncode ≠ 0 →
      mainRun env = ⟨["cargo fmt".data, "cargo clippy".data, "cargo test".data,
          "z1 fmt --check".data, "z1 fmt relaxed".data, "z1 hash".data],
        env.execHash.stdout ++ env.execHash.stderr,
        .error (.commandFailed
          ⟨env.execHash.returncode, argsHash env.cellPathStr⟩)⟩) ∧
    (∀ env : Env, env.cellExists = true →
      env.execFmt.returncode = 0 → env.execClippy.returncode = 0 →
      env.execTest.returncode = 0 → env.execFmtCheck.returncode = 0 →
      env.execRelaxed.returncode = 0 → env.execHash.returncode = 0 →
      env.execCtx.returncode ≠ 0 →
      mainRun env = ⟨["cargo fmt".data, "cargo clippy".data, "cargo test".data,
          "z1 fmt --check".data, "z1 fmt relaxed".data, "z1 hash".data,
          "z1 ctx".data],
        env.execCtx.stdout ++ env.execCtx.stderr,
        .error (.commandFailed
          ⟨env.execCtx.returncode, argsCtx env.cellPathStr⟩)⟩) := by
  refine ⟨?_, ?_, ?_, ?_, ?_, ?_, ?_, ?_⟩
  · intro env h
    simp [mainRun, h]
  · intro env hc h1
    simp [mainRun, run_command, hc, h1]
  · intro env hc h1 h2
    simp [mainRun, run_command, hc, h1, h2]
  · intro env hc h1 h2 h3
    simp [mainRun, run_command, hc, h1, h2, h3]
  · intro env hc h1 h2 h3 h4
    simp [mainRun, run_command, hc, h1, h2, h3, h4]
  · intro env hc h1 h2 h3 h4 h5
    simp [mainRun, run_command, hc, h1, h2, h3, h4, h5]
  · intro env hc h1 h2 h3 h4 h5 h6
    simp [mainRun, run_command, hc, h1, h2, h3, h4, h5, h6]
  · intro env hc h1 h2 h3 h4 h5 h6 h7
    simp [mainRun, run_command, hc, h1, h2, h3, h4, h5, h6, h7]

/-- Witness for C8: a missing cell aborts with nothing run; a first
command (fmt) failure stops after one command; a second command
(clippy) failure — the claim's example — stops after two; a seventh
command (ctx) failure stops after all seven with its captured streams
echoed. -/
theorem c8_failfast_and_missing_cell_witness :
    mainRun { env0 with cellExists := false } = ⟨[], [], .error .cellNotFound⟩ ∧
    mainRun { env0 with execFmt := ⟨3, [], [], 0⟩ } =
      ⟨["cargo fmt".data], [], .error (.commandFailed ⟨3, argsFmt⟩)⟩ ∧
    mainRun { env0 with execClippy := ⟨1, [], [], 0⟩ } =
      ⟨["cargo fmt".data, "cargo clippy".data], [],
        .error (.commandFailed ⟨1, argsClippy⟩)⟩ ∧
    mainRun { env0 with execCtx := ⟨2, "out".data, "err".data, 0⟩ } =
      ⟨["cargo fmt".data, "cargo clippy".data, "cargo test".data,
          "z1 fmt --check".data, "z1 fmt relaxed".data, "z1 hash".data,
          "z1 ctx".data],
        "out".data ++ "err".data,
        .error (.commandFailed ⟨2,
          argsCtx ({ env0 with
            execCtx := ⟨2, "out".data, "err".data, 0⟩ } : Env).cellPathStr⟩)⟩ :=
  ⟨c8_failfast_and_missing_cell.1 { env0 with cellExists := false } rfl,
    c8_failfast_and_missing_cell.2.1 { env0 with execFmt := ⟨3, [], [], 0⟩ }
      rfl (by decide),
    c8_failfast_and_missing_cell.2.2.1 { env0 with execClippy := ⟨1, [], [], 0⟩ }
      rfl rfl (by decide),
    c8_failfast_and_missing_cell.2.2.2.2.2.2.2
      { env0 with execCtx := ⟨2, "out".data, "err".data, 0⟩ }
      rfl rfl rfl rfl rfl rfl rfl (by decide)⟩

end Z1Bench
